import Mathlib

/-!
Verification development for the ZewroAI browser chat client.

The JavaScript sources are embedded shallowly: strings become `List Char`,
JSON values become the inductive `JVal`, network responses become explicit
oracle parameters, and the async generators become state-passing functions
(with a fuel argument standing for the source's `while` loops, which the
theorems show is never exhausted).  Machine text is modelled at the level of
Unicode code points; the `TextDecoder` byte-to-char step is identity on the
code-point streams considered here.
-/

namespace ZewroAI

/-- Strings are modelled as lists of characters. -/
abbrev Str := List Char

/-- The opening-brace character, `Char.ofNat 123`. -/
def lbrace : Char := Char.ofNat 123

/-- The closing-brace character, `Char.ofNat 125`. -/
def rbrace : Char := Char.ofNat 125

/-- JavaScript whitespace as used by `trim`, the `\s` regex class and the
JSON grammar, restricted to the code points that occur in this code base:
space, tab, newline, carriage return, vertical tab, form feed. -/
def isWs (c : Char) : Bool :=
  c = ' ' || c = '\t' || c = '\n' || c = '\r' || c = Char.ofNat 11 || c = Char.ofNat 12

/-- Model of `String.prototype.trim()`: drop whitespace from both ends. -/
def jsTrim (s : Str) : Str :=
  ((s.dropWhile isWs).reverse.dropWhile isWs).reverse

/-- Drop leading whitespace (the `\s*` of a regex, matched greedily). -/
def wsDrop (s : Str) : Str := s.dropWhile isWs

/-- Drop trailing whitespace. -/
def wsDropRight (s : Str) : Str := (s.reverse.dropWhile isWs).reverse

/-- ASCII `toLowerCase` (all text compared case-insensitively here is ASCII). -/
def toLowerStr (s : Str) : Str := s.map Char.toLower

/-- Substring test: `pat` occurs somewhere inside `s`
(JavaScript `String.prototype.includes`). -/
def containsSub (s pat : Str) : Bool :=
  match s with
  | [] => pat.isPrefixOf ([] : Str)
  | _ :: t => pat.isPrefixOf s || containsSub t pat

/-- Model of `String.prototype.replace(pat, rep)` with a plain-string pattern:
replace the leftmost occurrence only.  (The `$`-escape interpretation that
JavaScript applies to `rep` is outside the scope of this embedding; the
replacement text is inserted literally.) -/
def replFirstAux (pat rep : Str) : Str → Str
  | [] => []
  | c :: rest =>
    if pat.isPrefixOf (c :: rest) then rep ++ (c :: rest).drop pat.length
    else c :: replFirstAux pat rep rest

/-- Model of `s.replace(pat, rep)` for string patterns (leftmost occurrence; when the
pattern is empty JavaScript prepends the replacement). -/
def replaceFirst (s pat rep : Str) : Str :=
  if pat = [] then rep ++ s else replFirstAux pat rep s

/-- Decimal rendering of a natural number, for `${n}` interpolations. -/
def natStr (n : Nat) : Str := (Nat.repr n).data

/-! ## JSON values

`JVal` models the values produced by `JSON.parse`.  Numbers are restricted
to integers: no JSON text handled by the claims of this development carries
fractional or exponent parts. -/

/-- A parsed JSON value. -/
inductive JVal where
  | jnull : JVal
  | jbool (b : Bool) : JVal
  | jnum (n : Int) : JVal
  | jstr (s : Str) : JVal
  | jarr (xs : List JVal) : JVal
  | jobj (fs : List (Str × JVal)) : JVal

/-- JavaScript truthiness of a `JVal` (`if (content) ...`). -/
def jsTruthy : JVal → Bool
  | .jnull => false
  | .jbool b => b
  | .jnum n => n ≠ 0
  | .jstr s => s ≠ []
  | .jarr _ => true
  | .jobj _ => true

/-- Field lookup on a JSON object, `undefined` (`none`) otherwise.  With
duplicate keys `JSON.parse` keeps the last occurrence, hence the reversed
search. -/
def jField (j : JVal) (k : Str) : Option JVal :=
  match j with
  | .jobj fs => (fs.reverse.find? (fun f => f.1 = k)).map (·.2)
  | _ => none

/-- Index lookup (`x[0]`): array element, `undefined` otherwise. -/
def jIndex (j : JVal) (n : Nat) : Option JVal :=
  match j with
  | .jarr xs => xs.get? n
  | _ => none

/-! ### A JSON reader mirroring `JSON.parse`

Recursive descent with a fuel argument (the nesting depth of any input is
bounded by its length, so `length s + 1` fuel always suffices).  Escapes
cover the sequences that occur in the modelled streams; `\u` escapes denote
the code point directly (surrogate pairing is out of scope). -/

/-- Value of a hexadecimal digit. -/
def hexVal (c : Char) : Option Nat :=
  if '0' ≤ c ∧ c ≤ '9' then some (c.toNat - '0'.toNat)
  else if 'a' ≤ c ∧ c ≤ 'f' then some (c.toNat - 'a'.toNat + 10)
  else if 'A' ≤ c ∧ c ≤ 'F' then some (c.toNat - 'A'.toNat + 10)
  else none

/-- Read the body of a JSON string literal after the opening quote.
Returns the decoded characters and the input after the closing quote. -/
def readStr : Nat → Str → Option (Str × Str)
  | 0, _ => none
  | _ + 1, [] => none
  | fuel + 1, c :: rest =>
    if c = '"' then some ([], rest)
    else if c = '\\' then
      match rest with
      | [] => none
      | e :: rest2 =>
        let cont (d : Char) (r : Str) : Option (Str × Str) :=
          match readStr fuel r with
          | some (s, r2) => some (d :: s, r2)
          | none => none
        if e = '"' then cont '"' rest2
        else if e = '\\' then cont '\\' rest2
        else if e = '/' then cont '/' rest2
        else if e = 'n' then cont '\n' rest2
        else if e = 't' then cont '\t' rest2
        else if e = 'r' then cont '\r' rest2
        else if e = 'b' then cont (Char.ofNat 8) rest2
        else if e = 'f' then cont (Char.ofNat 12) rest2
        else if e = 'u' then
          match rest2 with
          | h1 :: h2 :: h3 :: h4 :: rest3 =>
            match hexVal h1, hexVal h2, hexVal h3, hexVal h4 with
            | some a, some b, some cc, some d =>
              cont (Char.ofNat (((a * 16 + b) * 16 + cc) * 16 + d)) rest3
            | _, _, _, _ => none
          | _ => none
        else none
    else
      match readStr fuel rest with
      | some (s, r2) => some (c :: s, r2)
      | none => none

/-- Read a run of decimal digits, returning their value and the rest. -/
def readDigits (s : Str) : Option (Nat × Str) :=
  let ds := s.takeWhile (fun c => '0' ≤ c ∧ c ≤ '9')
  if ds = [] then none
  else some (ds.foldl (fun a c => a * 10 + (c.toNat - '0'.toNat)) 0, s.drop ds.length)

/-- True when a digit run is followed by a character that would extend a
JSON number beyond the integer grammar modelled here (`.`, `e`, `E`):
such inputs are outside this embedding and rejected. -/
def numRest (s : Str) : Bool :=
  match s with
  | [] => false
  | c :: _ => c = '.' || c = 'e' || c = 'E'

mutual

/-- Read one JSON value from the front of the input (leading whitespace
already consumed); returns the value and the rest of the input. -/
def readVal : Nat → Str → Option (JVal × Str)
  | 0, _ => none
  | _ + 1, [] => none
  | fuel + 1, c :: rest =>
    if c = lbrace then readMembers fuel (wsDrop rest) true []
    else if c = '[' then readElems fuel (wsDrop rest) true []
    else if c = '"' then
      match readStr fuel rest with
      | some (s, r) => some (.jstr s, r)
      | none => none
    else if c = 't' then
      if ("rue".data).isPrefixOf rest then some (.jbool true, rest.drop 3) else none
    else if c = 'f' then
      if ("alse".data).isPrefixOf rest then some (.jbool false, rest.drop 4) else none
    else if c = 'n' then
      if ("ull".data).isPrefixOf rest then some (.jnull, rest.drop 3) else none
    else if c = '-' then
      match readDigits rest with
      | some (n, r) => if numRest r then none else some (.jnum (-(n : Int)), r)
      | none => none
    else if '0' ≤ c ∧ c ≤ '9' then
      match readDigits (c :: rest) with
      | some (n, r) => if numRest r then none else some (.jnum (n : Int), r)
      | none => none
    else none

/-- Read the members of a JSON object after the opening brace.
`first` is true before any member has been read; a member must follow a
comma afterwards (trailing commas are rejected, as by `JSON.parse`). -/
def readMembers : Nat → Str → Bool → List (Str × JVal) → Option (JVal × Str)
  | 0, _, _, _ => none
  | _ + 1, [], _, _ => none
  | fuel + 1, c :: rest, first, acc =>
    if c = rbrace then some (.jobj acc.reverse, rest)
    else
      let body : Str := if first then c :: rest else
        if c = ',' then wsDrop rest else []
      match body with
      | '"' :: afterQuote =>
        match readStr fuel afterQuote with
        | some (k, r1) =>
          match wsDrop r1 with
          | ':' :: r2 =>
            match readVal fuel (wsDrop r2) with
            | some (v, r3) => readMembers fuel (wsDrop r3) false (acc ++ [(k, v)])
            | none => none
          | _ => none
        | none => none
      | _ => none

/-- Read the elements of a JSON array after the opening bracket. -/
def readElems : Nat → Str → Bool → List JVal → Option (JVal × Str)
  | 0, _, _, _ => none
  | _ + 1, [], _, _ => none
  | fuel + 1, c :: rest, first, acc =>
    if c = ']' then some (.jarr acc.reverse, rest)
    else
      let body : Str := if first then c :: rest else
        if c = ',' then wsDrop rest else []
      match readVal fuel body with
      | some (v, r) => readElems fuel (wsDrop r) false (acc ++ [v])
      | none => none

end

/-- Model of `JSON.parse`: one complete value, allowing surrounding whitespace;
anything else throws, modelled by `none`.  The fuel `2 * length + 4`
dominates the reader's call depth (at most two reader calls per consumed
character). -/
def parseJson (s : Str) : Option JVal :=
  match readVal (2 * s.length + 4) (wsDrop s) with
  | some (v, r) => if wsDrop r = [] then some v else none
  | none => none

/-! ## Wire-frame decoder, SSE line-framed variant

Model of `readStream` (`message.js`, part_006): the incoming text is
accumulated in a buffer, `buffer.split("\n")` yields the completed lines
(the trailing element is put back as the new buffer), and each completed
line is trimmed, filtered against the blank/`data: [DONE]` sentinels,
stripped of its first `"data: "` occurrence, JSON-parsed, and its
`choices[0].delta.content` yielded when truthy.  There is no flush of the
buffer when the stream reports `done`. -/

/-- Model of `buffer.split("\n")` followed by `lines.pop()`: the completed
(newline-terminated) lines, and the trailing text after the last newline. -/
def splitNL : Str → List Str × Str
  | [] => ([], [])
  | c :: cs =>
    if c = '\n' then ([] :: (splitNL cs).1, (splitNL cs).2)
    else
      match splitNL cs with
      | (l :: ls, r) => ((c :: l) :: ls, r)
      | ([], r) => ([], c :: r)

/-- The `"data: "` tag removed from each SSE line. -/
def dataTag : Str := "data: ".data

/-- The end-of-stream sentinel line. -/
def doneLine : Str := "data: [DONE]".data

/-- Key `"choices"`. -/
def keyChoices : Str := "choices".data

/-- Key `"delta"`. -/
def keyDelta : Str := "delta".data

/-- Key `"content"`. -/
def keyContent : Str := "content".data

/-- Lookup `json.choices[0].delta.content` (also matching the optional-chaining
variant: every lookup failure — which in the non-optional variant throws a
`TypeError` swallowed by the same `catch` — yields `none`). -/
def getDeltaContent (j : JVal) : Option JVal :=
  (((jField j keyChoices).bind (jIndex · 0)).bind (jField · keyDelta)).bind
    (jField · keyContent)

/-- Emission test `if (content) yield content`.  The wire format delta frames carry
string contents; a non-string truthy `content` (outside the wire format)
is outside this embedding and collapsed to `none`. -/
def deltaEmit (j : JVal) : Option Str :=
  match getDeltaContent j with
  | some (.jstr s) => if s = [] then none else some s
  | _ => none

/-- Processing of one completed SSE line: trim, skip blank and `[DONE]`
lines, strip the first `"data: "`, `JSON.parse` (a failure, or a missing
field on the parsed object, is caught and skipped), emit truthy content. -/
def emitLine (line : Str) : Option Str :=
  let t := jsTrim line
  if t = [] then none
  else if t = doneLine then none
  else
    match parseJson (replaceFirst t dataTag []) with
    | some j => deltaEmit j
    | none => none

/-- The SSE loop of `readStream` over a list of received chunks, starting
from buffer `buf`; emits the deltas of every completed line, and drops the
final buffer when the stream ends (no flush). -/
def sseRunAux : Str → List Str → List Str
  | _, [] => []
  | buf, ch :: rest =>
    ((splitNL (buf ++ ch)).1.filterMap emitLine) ++
      sseRunAux (splitNL (buf ++ ch)).2 rest

/-- All deltas emitted by `readStream` on a chunked stream. -/
def sseDeltas (chunks : List Str) : List Str := sseRunAux [] chunks

/-! ## Wire-frame decoder, concatenated-JSON variant

Model of `processStream` (`message.js`, part_005 `regularMsg` and the
summarize-phase reader): each received chunk is prepended with the current
`leftover`, split on the regex `(?<=\})\s*(?=\{)` (a position right after a
`}` whose following whitespace run ends at a `{`, the whitespace being
consumed), and every piece is trimmed and `JSON.parse`d; a parse failure on
the last piece makes that (trimmed) piece the new leftover, failures on
earlier pieces are logged and skipped.  When the stream ends, one final
parse attempt is made on the leftover. -/

/-- Does the text after a `}` consist of whitespace up to a `{`?
(the regex lookahead `\s*(?={)`). -/
def startsNextObj (rest : Str) : Bool :=
  match wsDrop rest with
  | c :: _ => c = lbrace
  | [] => false

/-- Scanner for `split(/(?<=\})\s*(?=\{)/)`: `cur` holds the current piece
reversed.  The fuel is structural (every step consumes at least one input
character, so `length + 1` fuel always suffices). -/
def splitJsonsAux : Nat → Str → Str → List Str
  | 0, cur, _ => [cur.reverse]
  | fuel + 1, cur, s =>
    match s with
    | [] => [cur.reverse]
    | c :: rest =>
      if c = rbrace ∧ startsNextObj rest then
        (c :: cur).reverse :: splitJsonsAux fuel [] (wsDrop rest)
      else
        splitJsonsAux fuel (c :: cur) rest

/-- Model of `textChunk.split(/(?<=\})\s*(?=\{)/)`. -/
def splitJsons (s : Str) : List Str := splitJsonsAux (s.length + 1) [] s

/-- The `for` loop over the split pieces: emitted deltas and the new
leftover (set only by a parse failure on the last piece). -/
def procPieces : List Str → List Str × Str
  | [] => ([], [])
  | [p] =>
    let t := jsTrim p
    if t = [] then ([], [])
    else
      match parseJson t with
      | some j => ((deltaEmit j).toList, [])
      | none => ([], t)
  | p :: q :: rest =>
    let t := jsTrim p
    if t = [] then procPieces (q :: rest)
    else
      match parseJson t with
      | some j => ((deltaEmit j).toList ++ (procPieces (q :: rest)).1,
                   (procPieces (q :: rest)).2)
      | none => procPieces (q :: rest)

/-- One loop iteration of `processStream` on a received chunk. -/
def concatStep (leftover chunk : Str) : List Str × Str :=
  procPieces (splitJsons (leftover ++ chunk))

/-- The end-of-stream flush: one final parse attempt on the leftover,
discarded silently on failure. -/
def concatFinish (leftover : Str) : List Str :=
  if jsTrim leftover = [] then []
  else
    match parseJson (jsTrim leftover) with
    | some j => (deltaEmit j).toList
    | none => []

/-- The `processStream` loop from a given leftover over the remaining
chunks, ending with the flush. -/
def concatRunFrom : Str → List Str → List Str
  | leftover, [] => concatFinish leftover
  | leftover, ch :: rest =>
    (concatStep leftover ch).1 ++ concatRunFrom (concatStep leftover ch).2 rest

/-- All deltas emitted by `processStream` on a chunked stream. -/
def concatDeltas (chunks : List Str) : List Str := concatRunFrom [] chunks

/-! ## `JSON.stringify` -/

/-- Escaping of one character inside a stringified JSON string.  Control
characters other than the named escapes (which JavaScript renders as
`\uXXXX`) do not occur in the modelled texts. -/
def escChar (c : Char) : Str :=
  if c = '"' then ['\\', '"']
  else if c = '\\' then ['\\', '\\']
  else if c = '\n' then ['\\', 'n']
  else if c = '\t' then ['\\', 't']
  else if c = '\r' then ['\\', 'r']
  else if c = Char.ofNat 8 then ['\\', 'b']
  else if c = Char.ofNat 12 then ['\\', 'f']
  else [c]

/-- String-body escaping for `JSON.stringify`. -/
def escStr (s : Str) : Str := (s.map escChar).flatten

mutual

/-- Model of `JSON.stringify` on a defined value. -/
def jsonStringify : JVal → Str
  | .jnull => "null".data
  | .jbool true => "true".data
  | .jbool false => "false".data
  | .jnum n => (toString n).data
  | .jstr s => '"' :: (escStr s ++ ['"'])
  | .jarr xs => '[' :: (List.intercalate [','] (stringifyList xs) ++ [']'])
  | .jobj fs => lbrace :: (List.intercalate [','] (stringifyFields fs) ++ [rbrace])

/-- Renderings of the elements of an array. -/
def stringifyList : List JVal → List Str
  | [] => []
  | x :: xs => jsonStringify x :: stringifyList xs

/-- Renderings of the members of an object. -/
def stringifyFields : List (Str × JVal) → List Str
  | [] => []
  | (k, v) :: fs =>
    (('"' :: (escStr k ++ ['"', ':'])) ++ jsonStringify v) :: stringifyFields fs

end

/-! ## Reasoning-need classifier, part_006 variant

`shouldUseReasoning` in part_006's `message.js` performs the model call and
then executes `return JSON.stringify(data.choices[0].message.content)` with
no `try`/`catch`: a rejected fetch (or `.json()`) propagates, a `TypeError`
from the property chain propagates, and an ordinary content string comes
back JSON-double-encoded (`"true"` becomes the six-character text
`"true"` including the quotes). -/

/-- Key `"message"`. -/
def keyMessage : Str := "message".data

/-- The error text standing for a propagated `TypeError`. -/
def typeErrText : Str := "TypeError".data

/-- JavaScript property read `v.k`: throws on `undefined`/`null`
receivers, yields the field on objects, `undefined` otherwise. -/
def propAccess (v : Option JVal) (k : Str) : Except Str (Option JVal) :=
  match v with
  | none => .error typeErrText
  | some .jnull => .error typeErrText
  | some (.jobj fs) => .ok (jField (.jobj fs) k)
  | some _ => .ok none

/-- JavaScript index read `v[n]`: throws on `undefined`/`null`, yields the
element on arrays, `undefined` otherwise (string receivers, which would
yield a one-character string, do not occur in the modelled responses). -/
def idxAccess (v : Option JVal) (n : Nat) : Except Str (Option JVal) :=
  match v with
  | none => .error typeErrText
  | some .jnull => .error typeErrText
  | some (.jarr xs) => .ok (xs.get? n)
  | some _ => .ok none

/-- part_006 `shouldUseReasoning` after the fetch: the argument is the
settled result of `response.json()`; the return value is
`JSON.stringify(data.choices[0].message.content)` — `none` when `content`
is `undefined` (`JSON.stringify(undefined)` is `undefined`). -/
def shouldUseReasoning6 (resp : Except Str JVal) : Except Str (Option Str) :=
  match resp with
  | .error e => .error e
  | .ok data => do
    let c ← propAccess (some data) keyChoices
    let c0 ← idxAccess c 0
    let m ← propAccess c0 keyMessage
    let ct ← propAccess m keyContent
    .ok (ct.map jsonStringify)

/-! ## Reasoning-need classifier, part_005 variant

This variant wraps everything in `try`/`catch` (returning `false` on any
thrown error), validates the response shape, matches
`/Decision:\s*(true|false)$/i` against the trimmed content, and otherwise
falls back to a case-insensitive substring search for `true` then
`false`, defaulting to `false`. -/

/-- The lowered literal `"decision:"`. -/
def decLabel : Str := "decision:".data

/-- The literal `"true"`. -/
def tTrue : Str := "true".data

/-- The literal `"false"`. -/
def tFalse : Str := "false".data

/-- Model of `rawContent.match(/Decision:\s*(true|false)$/i)`: the pattern is
anchored at the end of the string, so a match exists exactly when the
lowered text ends with `decision:`, optional whitespace, and one of the
two tokens; the returned `Bool` is the captured token. -/
def matchDecisionEnd (s : Str) : Option Bool :=
  let l := toLowerStr s
  if tTrue.isSuffixOf l then
    if decLabel.isSuffixOf (wsDropRight (l.take (l.length - 4))) then some true
    else none
  else if tFalse.isSuffixOf l then
    if decLabel.isSuffixOf (wsDropRight (l.take (l.length - 5))) then some false
    else none
  else none

/-- The response-shape validation of part_005's `shouldUseReasoning`
(`!data || !data.choices || data.choices.length === 0 ||
!data.choices[0].message` and then `data.choices[0].message.content.trim()`):
returns the content string when every check passes; every failure path —
the explicit `throw` as well as a `TypeError` from `.trim()` on a
non-string — lands in the surrounding `catch` and is `none` here. -/
def sur5Content (data : JVal) : Option Str :=
  if jsTruthy data = false then none
  else
    match jField data keyChoices with
    | none => none
    | some ch =>
      if jsTruthy ch = false then none
      else
        match ch with
        | .jarr [] => none
        | .jarr (x :: _) =>
          (match jField x keyMessage with
           | none => none
           | some m =>
             if jsTruthy m = false then none
             else
               match jField m keyContent with
               | some (.jstr s) => some s
               | _ => none)
        | _ => none

/-- part_005 `shouldUseReasoning` on the settled call result (`.error` for
a thrown fetch/HTTP error). -/
def shouldUseReasoning5 (resp : Except Unit JVal) : Bool :=
  match resp with
  | .error _ => false
  | .ok data =>
    match sur5Content data with
    | none => false
    | some content =>
      let r := jsTrim content
      match matchDecisionEnd r with
      | some b => b
      | none =>
        let l := toLowerStr r
        if containsSub l tTrue then true
        else if containsSub l tFalse then false
        else false

/-! ## Conversation turn controller (`App.vue` `sendMessage`)

The turn is modelled by its observable effect on the assistant `Message`
appended for it.  `sendMessage` computes `useReasoning` (a string or
`undefined`) before its `try` block: an explicit `reasoningOverride ===
true` short-circuits to `'"true"'`, otherwise with auto-mode the value is
whatever `shouldUseReasoning` resolves to — and if that call rejects, the
whole function rejects before `try`/`finally`, leaving the message
incomplete.  Inside `try`, the reasoning path is taken iff `useReasoning
=== '"true"'`; streamed chunks are appended to `content`;
`reasoningDuration` is assigned only after the reasoning iteration
completes normally.  The `catch` replaces `content` by `"Error: " +
message` for non-`AbortError`s, and `finally` sets `complete = true`. -/

/-- The thrown-error name for a user cancellation. -/
def abortName : Str := "AbortError".data

/-- The `"Error: "` text prepended by the catch block. -/
def errColon : Str := "Error: ".data

/-- The six-character string `'"true"'` that `sendMessage` compares
`useReasoning` against. -/
def quoteTrue : Str := "\"true\"".data

/-- The string `'"false"'`. -/
def quoteFalse : Str := "\"false\"".data

/-- How the chosen path's `for await` iteration ended: normal completion,
or a thrown error with a name and message. -/
inductive StreamOutcome where
  | success : StreamOutcome
  | thrown (name msg : Str) : StreamOutcome
deriving DecidableEq

/-- The settled result of the `shouldUseReasoning` call: a resolved value
(`none` for `undefined`) or a rejection. -/
inductive ClsResult where
  | ok (v : Option Str) : ClsResult
  | thrown (name msg : Str) : ClsResult
deriving DecidableEq

/-- The assistant `Message` fields tracked by the claims.  `completeSets`
counts assignments to `complete`; `reasoningDuration` is `none` while the
field is unset (`undefined`). -/
structure AssistantMsg where
  content : Str
  complete : Bool
  completeSets : Nat
  reasoningDuration : Option Int
deriving DecidableEq

/-- The outcome of one `sendMessage` turn. -/
structure TurnResult where
  msg : AssistantMsg
  usedReasoning : Bool
deriving DecidableEq

/-- Lines 102–109 of `App.vue`: the `useReasoning` value, or `none` when
the classifier call rejects and `sendMessage` itself rejects before the
`try` block. -/
def decideUseReasoning (override : Option Bool) (auto : Bool) (cls : ClsResult) :
    Option (Option Str) :=
  if override = some true then some (some quoteTrue)
  else if auto then
    match cls with
    | .ok v => some v
    | .thrown _ _ => none
  else some (some quoteFalse)

/-- The turn's effect on its assistant message, given the per-message
override, the auto-reasoning flag, the settled classifier result, the
deltas received before the chosen path's iteration ended, that ending, and
the clock readings at the start and end of the reasoning path. -/
def runTurn (override : Option Bool) (auto : Bool) (cls : ClsResult)
    (chunks : List Str) (outcome : StreamOutcome) (t0 t1 : Nat) : TurnResult :=
  match decideUseReasoning override auto cls with
  | none => ⟨⟨[], false, 0, none⟩, false⟩
  | some v =>
    let useR : Bool := decide (v = some quoteTrue)
    let received := chunks.flatten
    match outcome with
    | .success =>
      ⟨⟨received, true, 1,
        if useR then some ((t1 : Int) - (t0 : Int)) else none⟩, useR⟩
    | .thrown name msg =>
      ⟨⟨if name = abortName then received else errColon ++ msg,
        true, 1, none⟩, useR⟩

/-! ## Multi-phase orchestrator, part_006 `streamChainOfThought`

The generator runs `while (currentStep && attempts < MAX_ATTEMPTS)` with
`MAX_ATTEMPTS = 3`, calling the model once per iteration, yielding a phase
header, the streamed phase text, and a separator, appending the phase text
to `aggregatedContent`, and then advancing
`gather → analyze → solve → review → (solve retry | summarize) → done`.
A review whose trimmed text does not start with `ACCEPTABLE:` triggers a
retry while `attempts < MAX_ATTEMPTS - 1`, else yields the
`MAX ATTEMPTS REACHED` marker and moves to `summarize`.

The `prompts` object of the source is a JavaScript object literal whose
template strings are evaluated **once**, at generator start, when
`attempts === 0` and `lastReviewFeedback === ""`; the per-call system
message is rebuilt each iteration from fresh `attempts`/`aggregatedContent`
but embeds that frozen `prompts[currentStep]` text.  The English prose of
the phase prompts and of the system-message scaffold is abstracted into
parameters (`Prompts6`, `Env6`); every interpolation seam is kept.

Model responses are an oracle `resp : Phase6 → Nat → Str` giving the full
streamed text of the call with a given phase and global call index. -/

/-- The five phases of the part_006 pipeline. -/
inductive Phase6 where
  | gather : Phase6
  | analyze : Phase6
  | solve : Phase6
  | review : Phase6
  | summarize : Phase6
deriving DecidableEq

/-- Phase name `currentStep.toUpperCase()`. -/
def phaseUpper6 : Phase6 → Str
  | .gather => "GATHER".data
  | .analyze => "ANALYZE".data
  | .solve => "SOLVE".data
  | .review => "REVIEW".data
  | .summarize => "SUMMARIZE".data

/-- The literal spliced before the feedback in the solve prompt template:
`"\n[Previous Errors] MUST FIX: "`. -/
def mustFixTag : Str := "\n[Previous Errors] MUST FIX: ".data

/-- A single newline. -/
def nlStr : Str := "\n".data

/-- The constant prose of the five phase prompts; the solve prompt is split
around its feedback interpolation. -/
structure Prompts6 where
  gatherText : Str
  analyzeText : Str
  solvePre : Str
  solvePost : Str
  reviewText : Str
  summarizeText : Str

/-- The solve prompt template as a function of `attempts` and
`lastReviewFeedback`
(`${attempts > 0 ? "\n[Previous Errors] MUST FIX: " + lastReviewFeedback + "\n" : ""}`). -/
def solvePromptText (pt : Prompts6) (attempts : Nat) (feedback : Str) : Str :=
  pt.solvePre ++ (if 0 < attempts then mustFixTag ++ feedback ++ nlStr else []) ++
    pt.solvePost

/-- The `prompts` object: evaluated once at generator start, where
`attempts = 0` and `lastReviewFeedback = ""` — so the solve entry never
contains any feedback. -/
def prompts6 (pt : Prompts6) : Phase6 → Str
  | .gather => pt.gatherText
  | .analyze => pt.analyzeText
  | .solve => solvePromptText pt 0 []
  | .review => pt.reviewText
  | .summarize => pt.summarizeText

/-- The literal `"ATTEMPT "` of the `${attempts > 0 ? ... : ""}`
interpolation in the per-call system message. -/
def attemptWord : Str := "ATTEMPT ".data

/-- Constant fragments (`scafA` … `scafH`) of the per-call system-message
template, in source order, together with the turn-constant interpolations
(`system_prompt`, `JSON.stringify(plainMessages)`, `global_memory`) and
the frozen phase prompts. -/
structure Env6 where
  scafA : Str
  scafB : Str
  scafC : Str
  scafD : Str
  scafE : Str
  scafF : Str
  scafG : Str
  scafH : Str
  systemPrompt : Str
  historyJson : Str
  memory : Str
  pt : Prompts6

/-- The per-call system message: rebuilt every iteration with the current
`attempts` and `aggregatedContent`, embedding the frozen
`prompts[currentStep]`. -/
def mkSys6 (env : Env6) (p : Phase6) (attempts : Nat) (aggregated : Str) : Str :=
  env.scafA ++ phaseUpper6 p ++ env.scafB ++
    (if 0 < attempts then attemptWord ++ natStr (attempts + 1) else []) ++
    env.scafC ++ env.systemPrompt ++ env.scafD ++ env.historyJson ++
    env.scafE ++ env.memory ++ env.scafF ++ aggregated ++
    env.scafG ++ prompts6 env.pt p ++ env.scafH

/-- Yielded phase header `\n### STEP ###\n`. -/
def hdr6 (p : Phase6) : Str := "\n### ".data ++ phaseUpper6 p ++ " ###\n".data

/-- Transcript block header `\n\n=== STEP ===\n`. -/
def aggHdr6 (p : Phase6) : Str := "\n\n=== ".data ++ phaseUpper6 p ++ " ===\n".data

/-- Yielded separator `\n---\n`. -/
def sepYield : Str := "\n---\n".data

/-- Yielded marker `\n### RETRY SOLUTION ###\n`. -/
def retryMarker : Str := "\n### RETRY SOLUTION ###\n".data

/-- Yielded marker `\n### MAX ATTEMPTS REACHED ###\n`. -/
def maxMarker : Str := "\n### MAX ATTEMPTS REACHED ###\n".data

/-- The preamble yielded before the first phase. -/
def think6 : Str := "\n\n🤔 Let me think this through step by step...\n\n".data

/-- The verdict the review text must start with. -/
def acceptTag : Str := "ACCEPTABLE:".data

/-- The generator's mutable locals plus the yielded output and a log of
the issued calls (phase, system-message content). -/
structure Cot6State where
  currentStep : Option Phase6
  attempts : Nat
  aggregated : Str
  lastFeedback : Str
  callIdx : Nat
  output : List Str
  calls : List (Phase6 × Str)

/-- One iteration of the `while` loop, with `currentStep = some p` and the
`attempts` guard already passed. -/
def cot6Iter (env : Env6) (resp : Phase6 → Nat → Str) (st : Cot6State)
    (p : Phase6) : Cot6State :=
  let sys := mkSys6 env p st.attempts st.aggregated
  let content := resp p st.callIdx
  let st1 : Cot6State :=
    { st with
      callIdx := st.callIdx + 1
      calls := st.calls ++ [(p, sys)]
      output := st.output ++ [hdr6 p, content, sepYield]
      aggregated := st.aggregated ++ aggHdr6 p ++ content ++ nlStr }
  match p with
  | .gather => { st1 with currentStep := some .analyze }
  | .analyze => { st1 with currentStep := some .solve }
  | .solve => { st1 with currentStep := some .review }
  | .review =>
    if acceptTag.isPrefixOf (jsTrim content) then
      { st1 with currentStep := some .summarize }
    else if st.attempts < 2 then
      { st1 with
        lastFeedback := jsTrim content
        output := st1.output ++ [retryMarker]
        currentStep := some .solve
        attempts := st.attempts + 1 }
    else
      { st1 with
        output := st1.output ++ [maxMarker]
        currentStep := some .summarize }
  | .summarize => { st1 with currentStep := none }

/-- The `while (currentStep && attempts < MAX_ATTEMPTS)` loop; the fuel
bounds the number of iterations and is shown ample by the theorems
(`currentStep = none` in the final state). -/
def cot6Loop (env : Env6) (resp : Phase6 → Nat → Str) :
    Nat → Cot6State → Cot6State
  | 0, st => st
  | fuel + 1, st =>
    match st.currentStep with
    | none => st
    | some p =>
      if st.attempts < 3 then cot6Loop env resp fuel (cot6Iter env resp st p)
      else st

/-- The generator's state after the initial yield. -/
def cot6Init : Cot6State :=
  ⟨some .gather, 0, [], [], 0, [think6], []⟩

/-- The whole part_006 `streamChainOfThought` run. -/
def cot6Run (env : Env6) (resp : Phase6 → Nat → Str) : Cot6State :=
  cot6Loop env resp 12 cot6Init

/-- Number of SOLVE-phase model calls in a run. -/
def solveCalls6 (st : Cot6State) : Nat :=
  st.calls.countP (fun c => decide (c.1 = Phase6.solve))

/-! ## Adaptive orchestrator, part_007 `streamChainOfThought`

The agent loop runs `while (stepCount < MAX_AGENT_STEPS &&
!reasoningComplete)` with `MAX_AGENT_STEPS = 15`.  Each iteration makes a
reasoning-step call (yielding its text at once), a hidden critique call
parsed by `_parseCritique`, and — when the critique is flawed — a visible
correction call whose system message is the correction template with
`[FLAWED_STEP_TEXT]` and `[CRITIQUE_REASON]` textually `replace`d.  The
turn's final text is checked for the `REASONING COMPLETE.` suffix (regex
`/\s*REASONING COMPLETE\.\s*$/`).  After the loop, a limit message is
yielded if the ceiling was hit, and the summarize call receives
`fullThinkingProcess.substring(0, fullThinkingProcess.lastIndexOf("### SUMMARIZE ###\n"))`
computed *before* that separator is appended.

The oracle `resp : Nat → Str` gives the content of the n-th model call of
the loop (`[]` stands for a missing/empty content, which the source's
`!data?.choices?.[0]?.message?.content` checks catch).  The
`agentMessages` history array (and its length-capping) feeds only the
instructions of subsequent step calls, which the oracle already
abstracts; it is not tracked. -/

/-- The lowered literal `"critique result:"`. -/
def critLabel : Str := "critique result:".data

/-- The token `"acceptable"`. -/
def tAcceptable : Str := "acceptable".data

/-- The token `"flawed"`. -/
def tFlawed : Str := "flawed".data

/-- The lowered literal `"reason:"`. -/
def reasonLabel : Str := "reason:".data

/-- Fallback reason of `_parseCritique` for a flawed step. -/
def defaultFlawedReason : Str :=
  "Critique identified potential flaws or issues with step scope.".data

/-- Fallback reason of `_parseCritique` for an acceptable step. -/
def defaultOkReason : Str := "Step appears sound and appropriately scoped.".data

/-- Leftmost match of `/critique result:\s*(acceptable|flawed)/` on the
(lowered) text: `some true` when the captured token is `acceptable`. -/
def findCritiqueToken : Str → Option Bool
  | [] => none
  | c :: rest =>
    if critLabel.isPrefixOf (c :: rest) then
      let after := wsDrop ((c :: rest).drop critLabel.length)
      if tAcceptable.isPrefixOf after then some true
      else if tFlawed.isPrefixOf after then some false
      else findCritiqueToken rest
    else findCritiqueToken rest

/-- Leftmost match of `/reason:\s*([\s\S]*)/i`: the text after the first
case-insensitive `reason:` (the source trims the capture, and the
greedy `\s*` only removes leading whitespace the trim would also drop). -/
def findReasonTail : Str → Option Str
  | [] => none
  | c :: rest =>
    if reasonLabel.isPrefixOf (toLowerStr ((c :: rest).take 7)) then
      some ((c :: rest).drop 7)
    else findReasonTail rest

/-- Model of `_parseCritique`: the verdict defaults to **flawed** when
`acceptable` is not explicitly matched (source comment: "Default to
flawed if 'acceptable' is not explicitly found"). -/
def parseCritique (s : Str) : Bool × Str :=
  let tokenMatch := findCritiqueToken (toLowerStr s)
  let isFlawed : Bool := decide (tokenMatch ≠ some true)
  let reason :=
    match findReasonTail s with
    | some r => jsTrim r
    | none => if isFlawed then defaultFlawedReason else defaultOkReason
  (isFlawed, reason)

/-- The completion sentinel. -/
def completionMarker : Str := "REASONING COMPLETE.".data

/-- Model of `/\s*REASONING COMPLETE\.\s*$/.test(s)`. -/
def endsMarker (s : Str) : Bool :=
  completionMarker.isSuffixOf (wsDropRight s)

/-- Model of `s.replace(/\s*REASONING COMPLETE\.\s*$/, "").trim()`, applied under
`endsMarker s = true`. -/
def stripCompletion (s : Str) : Str :=
  let w := wsDropRight s
  jsTrim (wsDropRight (w.take (w.length - completionMarker.length)))

/-- Placeholder `[FLAWED_STEP_TEXT]`. -/
def fTag : Str := "[FLAWED_STEP_TEXT]".data

/-- Placeholder `[CRITIQUE_REASON]`. -/
def rTag : Str := "[CRITIQUE_REASON]".data

/-- The correction call's system message:
`correctionSystemPrompt.replace("[FLAWED_STEP_TEXT]", step).replace("[CRITIQUE_REASON]", reason)`. -/
def correctionSysContent (tpl step reason : Str) : Str :=
  replaceFirst (replaceFirst tpl fTag step) rTag reason

/-- Two newlines, as appended to each yielded step. -/
def nl2 : Str := "\n\n".data

/-- The preamble yielded before the agent loop. -/
def think7 : Str := "🤔 Let me think this through step by step...\n\n".data

/-- The summarize separator `### SUMMARIZE ###\n`. -/
def sumSep : Str := "### SUMMARIZE ###\n".data

/-- The yielded ceiling message. -/
def maxStepMsg : Str :=
  ("[System: Reached maximum reasoning steps without signaling completion." ++
   " Proceeding to summary based on the current state.]\n\n").data

/-- The yielded message for a step call with missing content. -/
def errStepMsg (n : Nat) : Str :=
  "\n\n[System Error: AI response missing content at step ".data ++ natStr n ++
    ".]\n\n".data

/-- The yielded message for a failed correction call. -/
def corrFailMsg (n : Nat) : Str :=
  ("\n[System Error: Failed to generate correction for step ").data ++ natStr n ++
    (". Original step output for this turn will be used in history.]\n\n").data

/-- Log entry of `fullThinkingProcess` for a step attempt. -/
def attemptLog (n : Nat) (t : Str) : Str :=
  "[Agent Step ".data ++ natStr n ++ " - Attempt]\n".data ++ t ++ nl2

/-- Log entry of `fullThinkingProcess` for a critique verdict. -/
def critNote (n : Nat) (flawed : Bool) (reason : Str) : Str :=
  "--- [Internal Critique ".data ++ natStr n ++ "] Result: ".data ++
    (if flawed then "Flawed".data else "Acceptable".data) ++
    ". Reason: ".data ++ reason ++ " ---\n\n".data

/-- Log entry of `fullThinkingProcess` for an invalid critique response. -/
def critInvalidNote (n : Nat) : Str :=
  "--- [Internal Critique ".data ++ natStr n ++
    "] Error: Invalid response. Assumed acceptable. ---\n\n".data

/-- Log entry of `fullThinkingProcess` before a correction call. -/
def corrReqNote (n : Nat) (reason : Str) : Str :=
  "--- [System Requesting Correction for Step ".data ++ natStr n ++
    " due to: ".data ++ reason ++ "] ---\n".data

/-- Log entry of `fullThinkingProcess` for a correction result. -/
def corrLog (n : Nat) (t : Str) : Str :=
  "[Correction Step ".data ++ natStr n ++ "]\n".data ++ t ++ nl2

/-- Model of `s.lastIndexOf(pat)` as an option. -/
def lastIndexOfSub (s pat : Str) : Option Nat :=
  (List.range (s.length + 1)).reverse.find? (fun i => pat.isPrefixOf (s.drop i))

/-- Model of `s.substring(0, s.lastIndexOf(pat))`: on a missing pattern,
`lastIndexOf` is `-1` and `substring` clamps it to `0`, giving `""`. -/
def substrToLastIdx (s pat : Str) : Str :=
  match lastIndexOfSub s pat with
  | some i => s.take i
  | none => []

/-- Turn-constant inputs of the adaptive loop: the correction system
template (its prose abstract, its placeholders concrete). -/
structure Env7 where
  corrTpl : Str

/-- The agent loop's mutable locals, the yielded output, the
`fullThinkingProcess` log, and the system messages of the correction
calls. -/
structure Cot7State where
  stepCount : Nat
  reasoningComplete : Bool
  finalReasoningOutput : Str
  callIdx : Nat
  output : List Str
  fullThinking : Str
  corrCalls : List Str

/-- One iteration of the agent loop (guard already passed). -/
def cot7Iter (env : Env7) (resp : Nat → Str) (st : Cot7State) : Cot7State :=
  let n := st.stepCount + 1
  let solveText := resp st.callIdx
  let stA : Cot7State := { st with stepCount := n, callIdx := st.callIdx + 1 }
  if solveText = [] then
    { stA with
      output := stA.output ++ [errStepMsg n]
      fullThinking := stA.fullThinking ++ errStepMsg n
      reasoningComplete := true
      finalReasoningOutput := "[Error in reasoning step]".data }
  else
    let stB : Cot7State :=
      { stA with
        output := stA.output ++ [solveText ++ nl2]
        fullThinking := stA.fullThinking ++ attemptLog n solveText }
    let critText := resp stB.callIdx
    let stC : Cot7State := { stB with callIdx := stB.callIdx + 1 }
    let critique : Bool × Str :=
      if critText = [] then
        (false, "Critique step failed or produced invalid output.".data)
      else parseCritique (jsTrim critText)
    let stD : Cot7State :=
      if critText = [] then
        { stC with fullThinking := stC.fullThinking ++ critInvalidNote n }
      else
        { stC with
          fullThinking := stC.fullThinking ++ critNote n critique.1 critique.2 }
    let afterCorr : Cot7State × Str :=
      if critique.1 then
        let corrText := resp stD.callIdx
        let stE : Cot7State :=
          { stD with
            callIdx := stD.callIdx + 1
            fullThinking := stD.fullThinking ++ corrReqNote n critique.2
            corrCalls := stD.corrCalls ++
              [correctionSysContent env.corrTpl solveText critique.2] }
        if corrText = [] then
          ({ stE with
             output := stE.output ++ [corrFailMsg n]
             fullThinking := stE.fullThinking ++ corrFailMsg n }, solveText)
        else
          ({ stE with
             output := stE.output ++ [corrText ++ nl2]
             fullThinking := stE.fullThinking ++ corrLog n corrText }, corrText)
      else (stD, solveText)
    let stF := afterCorr.1
    let current := afterCorr.2
    if endsMarker current then
      { stF with
        reasoningComplete := true
        finalReasoningOutput := stripCompletion current }
    else
      { stF with finalReasoningOutput := current }

/-- The `while (stepCount < MAX_AGENT_STEPS && !reasoningComplete)` loop. -/
def cot7Loop (env : Env7) (resp : Nat → Str) : Nat → Cot7State → Cot7State
  | 0, st => st
  | fuel + 1, st =>
    if st.stepCount < 15 ∧ st.reasoningComplete = false then
      cot7Loop env resp fuel (cot7Iter env resp st)
    else st

/-- The state after the initial yield. -/
def cot7Init : Cot7State :=
  ⟨0, false, "[Reasoning did not complete or produce output]".data, 0,
   [think7], think7, []⟩

/-- Outcome of a whole part_007 run: the final loop state (after the
post-loop yields) and the monologue context handed to the summarize
call. -/
structure Cot7Result where
  final : Cot7State
  summaryContext : Str

/-- The post-loop section: ceiling message, summary-context computation
(before the separator is appended), separator yield, summary stream
(given as the delta list `sdeltas`). -/
def cot7Finish (st : Cot7State) (sdeltas : List Str) : Cot7Result :=
  let st1 : Cot7State :=
    if 15 ≤ st.stepCount ∧ st.reasoningComplete = false then
      { st with
        output := st.output ++ [maxStepMsg]
        fullThinking := st.fullThinking ++ maxStepMsg }
    else st
  let ctx := substrToLastIdx st1.fullThinking sumSep
  let st2 : Cot7State :=
    { st1 with
      fullThinking := st1.fullThinking ++ sumSep
      output := st1.output ++ [sumSep] ++ sdeltas }
  ⟨st2, ctx⟩

/-- The whole part_007 `streamChainOfThought` run. -/
def cot7Run (env : Env7) (resp : Nat → Str) (sdeltas : List Str) : Cot7Result :=
  cot7Finish (cot7Loop env resp 16 cot7Init) sdeltas

/-! ## Concrete instances used by the theorems -/

/-- A well-formed non-streaming completion response carrying `s` at
`choices[0].message.content`. -/
def mkResp (s : Str) : JVal :=
  .jobj [(keyChoices, .jarr [.jobj [(keyMessage, .jobj [(keyContent, .jstr s)])]])]

/-- The thrown-error name `"Error"`. -/
def errName : Str := "Error".data

/-- A network-failure message. -/
def msgNetFail : Str := "network failure".data

/-- An error message. -/
def msgBoom : Str := "boom".data

/-- A partial delta. -/
def chunkHi : Str := "Hi".data

/-- A partial delta received on the reasoning path. -/
def chunkPart : Str := "part".data

/-- A classifier content that is neither `true` nor `false`. -/
def tMaybe : Str := "maybe".data

/-- Rendering `JSON.stringify("maybe")`. -/
def quoteMaybe : Str := "\"maybe\"".data

/-- A rejection message for the classifier fetch. -/
def errE0 : Str := "fetch failed".data

/-- A classifier content matching neither the decision pattern nor the
substring fallback. -/
def tNoDecision : Str := "Cannot tell, sorry.".data

/-- A complete wire frame whose delta content is `"a b"`. -/
def frameAB : Str :=
  "\x7b\"choices\":[\x7b\"delta\":\x7b\"content\":\"a b\"\x7d\x7d]\x7d".data

/-- The first 35 characters of `frameAB`, cut right after the space inside
the string literal `"a b"`. -/
def chopAB1 : Str :=
  "\x7b\"choices\":[\x7b\"delta\":\x7b\"content\":\"a ".data

/-- The remainder of `frameAB` after `chopAB1`. -/
def chopAB2 : Str := "b\"\x7d\x7d]\x7d".data

/-- A complete wire frame whose delta content is `"4"`. -/
def frame4 : Str :=
  "\x7b\"choices\":[\x7b\"delta\":\x7b\"content\":\"4\"\x7d\x7d]\x7d".data

/-- A complete SSE data line (no newline yet). -/
def sseLine4 : Str := dataTag ++ frame4

/-- The delta `"a b"`. -/
def tAB : Str := "a b".data

/-- The corrupted delta `"ab"`. -/
def tABglued : Str := "ab".data

/-- The delta `"4"`. -/
def t4 : Str := "4".data

/-- A critique text with no verdict token. -/
def tNoVerdict : Str := "I think this looks fine to me.".data

/-- A small correction template with both placeholders, prose abstracted
to markers. -/
def corrTplX : Str := "CP ".data ++ fTag ++ " CM ".data ++ rTag ++ " CS".data

/-- A concrete `Env7`. -/
def env7X : Env7 := ⟨corrTplX⟩

/-- A plain reasoning step. -/
def stepPlain : Str := "My step.".data

/-- A critique answer with no verdict token. -/
def critNoVerdict : Str := "Looks fine to me.".data

/-- A correction ending with the completion marker. -/
def stepDone : Str := "Corrected. REASONING COMPLETE.".data

/-- Oracle: a plain step, a token-free critique, then marker-terminated
corrections. -/
def respC6 (n : Nat) : Str :=
  if n = 0 then stepPlain else if n = 1 then critNoVerdict else stepDone

/-- A `Prompts6` with empty prose. -/
def ptX : Prompts6 := ⟨[], [], [], [], [], []⟩

/-- An `Env6` with empty prose. -/
def envX6 : Env6 := ⟨[], [], [], [], [], [], [], [], [], [], [], ptX⟩

/-- A review verdict that is always unacceptable. -/
def respUnaccTxt : Str := "UNACCEPTABLE: bad".data

/-- The constant part_006 oracle answering `UNACCEPTABLE: bad` everywhere. -/
def respUnacc (_ : Phase6) (_ : Nat) : Str := respUnaccTxt

/-- The text `"x"`. -/
def tX : Str := "x".data

/-- The constant part_007 oracle answering `x` everywhere: never empty,
never carrying a verdict token (hence always parsed as flawed), never
ending with the completion marker. -/
def respX (_ : Nat) : Str := tX

/-- A critique reason. -/
def respReason0 : Str := "fix the sign".data

/-- A single step that ends with the completion marker. -/
def stepHello : Str := "Hello there. REASONING COMPLETE.".data

/-- An acceptable critique answer. -/
def critAccept : Str := "Critique Result: Acceptable\nReason: fine".data

/-- Oracle: one marker-terminated step with an acceptable critique. -/
def resp8 (n : Nat) : Str :=
  if n = 0 then stepHello else if n = 1 then critAccept else []

/-! ## Helper lemmas -/

theorem splitNL_append (s t : Str) :
    splitNL (s ++ t) =
      ((splitNL s).1 ++ (splitNL ((splitNL s).2 ++ t)).1,
       (splitNL ((splitNL s).2 ++ t)).2) := by
  induction s with
  | nil => simp [splitNL]
  | cons c cs ih =>
    by_cases hc : c = '\n'
    · subst hc
      simp [splitNL, ih]
    · rcases hA : splitNL cs with ⟨A, R⟩
      rcases hB : splitNL (R ++ t) with ⟨B1, B2⟩
      have ih2 : splitNL (cs ++ t) = (A ++ B1, B2) := by
        rw [ih, hA]
        simp [hB]
      cases A with
      | nil =>
        cases B1 with
        | nil => simp [splitNL, hc, ih2, hA, hB]
        | cons l ls => simp [splitNL, hc, ih2, hA, hB]
      | cons l ls => simp [splitNL, hc, ih2, hA, hB]

theorem newline_not_mem_splitNL_snd (s : Str) : '\n' ∉ (splitNL s).2 := by
  induction s with
  | nil => simp [splitNL]
  | cons c cs ih =>
    by_cases hc : c = '\n'
    · subst hc
      simpa [splitNL] using ih
    · rcases hA : splitNL cs with ⟨A, R⟩
      have ihR : '\n' ∉ R := by
        rw [hA] at ih
        simpa using ih
      cases A with
      | nil =>
        have he : splitNL (c :: cs) = ([], c :: R) := by
          simp [splitNL, hc, hA]
        rw [he]
        simp [List.mem_cons, ihR, Ne.symm hc]
      | cons l ls =>
        have he : splitNL (c :: cs) = ((c :: l) :: ls, R) := by
          simp [splitNL, hc, hA]
        rw [he]
        simpa using ihR

theorem splitNL_eq_of_no_newline (s : Str) (h : '\n' ∉ s) : splitNL s = ([], s) := by
  induction s with
  | nil => simp [splitNL]
  | cons c cs ih =>
    have hc : c ≠ '\n' := by
      intro e
      subst e
      exact h (List.mem_cons_self _ _)
    have h2 : '\n' ∉ cs := by
      intro m
      exact h (List.mem_cons_of_mem _ m)
    simp [splitNL, hc, ih h2]

/-- Every SSE emission comes from a newline-terminated line of the
concatenated stream: the run from any newline-free buffer equals the
line-wise processing of the whole text, and the trailing unterminated
line never contributes. -/
theorem sseRunAux_eq_join (chunks : List Str) :
    ∀ buf : Str, '\n' ∉ buf →
      sseRunAux buf chunks = (splitNL (buf ++ chunks.flatten)).1.filterMap emitLine := by
  induction chunks with
  | nil =>
    intro buf h
    simp [sseRunAux, splitNL_eq_of_no_newline buf h]
  | cons ch rest ih =>
    intro buf h
    simp only [sseRunAux, List.flatten_cons]
    rw [ih _ (newline_not_mem_splitNL_snd _), ← List.append_assoc,
      splitNL_append (buf ++ ch) rest.flatten]
    simp

/-! ## Claims about the turn controller and the classifier -/

/-- C1, counterexample.  The claim asserts that on *every* termination
path the assistant message ends `complete = true` and, when the reasoning
path was used, `reasoningDuration` is set.  Both parts fail on `App.vue`:
(i) when the classifier call itself rejects (no override, auto-mode on),
`sendMessage` rejects at `await shouldUseReasoning(...)`, which sits
*before* the `try`/`finally`, so the freshly appended assistant message is
never marked complete; (ii) a mid-stream cancellation (`AbortError`) of
the reasoning path skips the two lines after the `for await` loop, so
`reasoningDuration` is never assigned even though `finally` still sets
`complete = true`. -/
theorem turn_termination_cex :
    (runTurn none true (.thrown errName msgNetFail) [] .success 0 0).msg.complete
      = false ∧
    (runTurn (some true) true (.ok none) [chunkPart]
        (.thrown abortName msgBoom) 5 9).usedReasoning = true ∧
    (runTurn (some true) true (.ok none) [chunkPart]
        (.thrown abortName msgBoom) 5 9).msg.complete = true ∧
    (runTurn (some true) true (.ok none) [chunkPart]
        (.thrown abortName msgBoom) 5 9).msg.reasoningDuration = none := by
  decide

/-- C1, amended: provided the classifier call does not reject when it is
consulted (`decideUseReasoning ≠ none`), every termination path of the
chosen generator leaves the assistant message with `complete = true`,
assigned exactly once; `reasoningDuration` is assigned exactly when the
reasoning path's iteration completed without throwing, and the assigned
value is non-negative whenever the clock is monotone. -/
theorem turn_termination_amended (override : Option Bool) (auto : Bool)
    (cls : ClsResult) (chunks : List Str) (outcome : StreamOutcome) (t0 t1 : Nat)
    (hcls : decideUseReasoning override auto cls ≠ none) :
    (runTurn override auto cls chunks outcome t0 t1).msg.complete = true ∧
    (runTurn override auto cls chunks outcome t0 t1).msg.completeSets = 1 ∧
    ((runTurn override auto cls chunks outcome t0 t1).msg.reasoningDuration ≠ none ↔
      ((runTurn override auto cls chunks outcome t0 t1).usedReasoning = true ∧
        outcome = .success)) ∧
    (t0 ≤ t1 → ∀ d : Int,
      (runTurn override auto cls chunks outcome t0 t1).msg.reasoningDuration = some d →
      0 ≤ d) := by
  rcases hv : decideUseReasoning override auto cls with _ | v
  · exact absurd hv hcls
  · cases outcome with
    | success =>
      by_cases hr : v = some quoteTrue
      · refine ⟨by simp [runTurn, hv, hr], by simp [runTurn, hv, hr], ?_, ?_⟩
        · simp [runTurn, hv, hr]
        · intro hle d hd
          simp [runTurn, hv, hr] at hd
          omega
      · refine ⟨by simp [runTurn, hv, hr], by simp [runTurn, hv, hr], ?_, ?_⟩
        · simp [runTurn, hv, hr]
        · intro hle d hd
          simp [runTurn, hv, hr] at hd
    | thrown name msg =>
      refine ⟨by simp [runTurn, hv], by simp [runTurn, hv], ?_, ?_⟩
      · simp [runTurn, hv]
      · intro hle d hd
        simp [runTurn, hv] at hd

/-- C1 amended, witness: a successful single-call turn and a successful
reasoning turn at concrete inputs. -/
theorem turn_termination_amended_w :
    (runTurn (some true) false (.ok none) [chunkHi] .success 2 5).msg.complete
      = true ∧
    (runTurn (some true) false (.ok none) [chunkHi] .success 2 5).msg.completeSets
      = 1 ∧
    ((runTurn (some true) false (.ok none) [chunkHi] .success 2 5).msg.reasoningDuration
        ≠ none ↔
      ((runTurn (some true) false (.ok none) [chunkHi] .success 2 5).usedReasoning
          = true ∧
        StreamOutcome.success = .success)) ∧
    (2 ≤ 5 → ∀ d : Int,
      (runTurn (some true) false (.ok none) [chunkHi] .success 2 5).msg.reasoningDuration
        = some d → 0 ≤ d) :=
  turn_termination_amended (some true) false (.ok none) [chunkHi] .success 2 5
    (by decide)

/-- C9, counterexample.  On a non-cancellation error, `App.vue` line 157
executes `content = "Error: " + error.message`: an *assignment*, not an
append — the partially received `"Hi"` is discarded and the error text is
not bracket-delimited. -/
theorem error_overwrite_cex :
    (runTurn none false (.ok none) [chunkHi]
        (.thrown errName msgBoom) 0 0).msg.content = errColon ++ msgBoom ∧
    containsSub
      (runTurn none false (.ok none) [chunkHi]
        (.thrown errName msgBoom) 0 0).msg.content chunkHi = false := by
  decide

/-- C9, amended: on a non-cancellation error the assistant message's
content is *replaced* by `"Error: " + message` (received deltas are
discarded, no bracketed annotation); the message is still marked
complete; received deltas are kept only when the error is an
`AbortError`. -/
theorem error_overwrite_amended (chunks : List Str) (name msg : Str)
    (h : name ≠ abortName) :
    (runTurn none false (.ok none) chunks (.thrown name msg) 0 0).msg.content =
      errColon ++ msg ∧
    (runTurn none false (.ok none) chunks (.thrown name msg) 0 0).msg.complete =
      true ∧
    (runTurn none false (.ok none) chunks (.thrown abortName msg) 0 0).msg.content =
      chunks.flatten := by
  refine ⟨?_, ?_, ?_⟩ <;> simp [runTurn, decideUseReasoning, h]

/-- C9 amended, witness. -/
theorem error_overwrite_amended_w :
    (runTurn none false (.ok none) [chunkHi]
        (.thrown errName msgBoom) 0 0).msg.content = errColon ++ msgBoom ∧
    (runTurn none false (.ok none) [chunkHi]
        (.thrown errName msgBoom) 0 0).msg.complete = true ∧
    (runTurn none false (.ok none) [chunkHi]
        (.thrown abortName msgBoom) 0 0).msg.content = [chunkHi].flatten :=
  error_overwrite_amended [chunkHi] errName msgBoom (by decide)

/-- C3, counterexample.  The part_006 classifier ends with
`return JSON.stringify(data.choices[0].message.content)`: on the content
`"maybe"` it returns the seven-character string `"maybe"` (quotes
included) — not a boolean, and not any of the two decision tokens under
either the bare or the JSON-double-encoded representation. -/
theorem classifier_boolean_cex :
    shouldUseReasoning6 (.ok (mkResp tMaybe)) = .ok (some quoteMaybe) ∧
    quoteMaybe ≠ tTrue ∧ quoteMaybe ≠ tFalse ∧
    quoteMaybe ≠ quoteTrue ∧ quoteMaybe ≠ quoteFalse := by
  refine ⟨rfl, ?_, ?_, ?_, ?_⟩ <;> decide

/-- C3, amended: on a well-formed response the part_006 classifier
returns `JSON.stringify` of the content string, and the turn controller
(override absent, auto-mode on) drives the turn through
`streamChainOfThought` exactly when that returned value is the literal
string `'"true"'` (six characters, quotes included). -/
theorem classifier_routing_amended :
    (∀ s : Str, shouldUseReasoning6 (.ok (mkResp s)) =
      .ok (some (jsonStringify (.jstr s)))) ∧
    (∀ (v : Option Str) (chunks : List Str) (outcome : StreamOutcome) (t0 t1 : Nat),
      (runTurn none true (.ok v) chunks outcome t0 t1).usedReasoning = true ↔
        v = some quoteTrue) := by
  constructor
  · intro s
    rfl
  · intro v chunks outcome t0 t1
    cases outcome <;> simp [runTurn, decideUseReasoning]

/-- C4, counterexample.  The claim's "returns false" fails on the
part_006 variant it cites: that variant has no `try`/`catch`, so a thrown
call propagates (the function returns nothing at all), and an
unparseable content comes back JSON-stringified rather than as `false`. -/
theorem classifier_failsafe_cex :
    shouldUseReasoning6 (.error errE0) = .error errE0 ∧
    shouldUseReasoning6 (.ok (mkResp tNoDecision)) =
      .ok (some (jsonStringify (.jstr tNoDecision))) ∧
    shouldUseReasoning6 (.error errE0) ≠ .ok (some tFalse) ∧
    shouldUseReasoning6 (.error errE0) ≠ .ok (some quoteFalse) := by
  refine ⟨rfl, rfl, ?_, ?_⟩ <;> simp [shouldUseReasoning6]

/-- C4, amended: the part_005 `Decision:`-pattern classifier does return
`false` in all three failure modes — a thrown call, a response failing
the shape checks, and a text matching neither the decision pattern nor
the substring fallback.  (The part_006 variant instead propagates thrown
errors and returns the stringified text, as the counterexample shows.) -/
theorem classifier_failsafe_amended :
    shouldUseReasoning5 (.error ()) = false ∧
    (∀ data : JVal, sur5Content data = none →
      shouldUseReasoning5 (.ok data) = false) ∧
    (∀ (data : JVal) (content : Str), sur5Content data = some content →
      matchDecisionEnd (jsTrim content) = none →
      containsSub (toLowerStr (jsTrim content)) tTrue = false →
      containsSub (toLowerStr (jsTrim content)) tFalse = false →
      shouldUseReasoning5 (.ok data) = false) := by
  refine ⟨rfl, ?_, ?_⟩
  · intro data h
    simp [shouldUseReasoning5, h]
  · intro data content h1 h2 h3 h4
    simp [shouldUseReasoning5, h1, h2, h3, h4]

/-- C4 amended, witness: a shape-invalid response and an unparseable
content. -/
theorem classifier_failsafe_amended_w :
    shouldUseReasoning5 (.ok (.jobj [])) = false ∧
    shouldUseReasoning5 (.ok (mkResp tNoDecision)) = false :=
  ⟨classifier_failsafe_amended.2.1 (.jobj []) (by decide),
   classifier_failsafe_amended.2.2 (mkResp tNoDecision) tNoDecision (by decide)
     (by decide) (by decide) (by decide)⟩

/-! ## Claims about the wire-frame decoders -/

/-- C2, counterexample.  The concatenated-JSON decoder is *not* chunking
invariant: chopping `frameAB` right after the space inside the string
literal `"a b"` makes the loop trim that space off the stored leftover
(`leftover = potentialJsonString`, a trimmed value), so reassembly yields
the frame with content `"ab"` — the whole-stream decode emits `"a b"`,
the chopped decode emits `"ab"`. -/
theorem concat_chunking_cex :
    chopAB1 ++ chopAB2 = frameAB ∧
    concatDeltas [frameAB] = [tAB] ∧
    concatDeltas [chopAB1, chopAB2] = [tABglued] ∧
    concatDeltas [chopAB1, chopAB2] ≠ concatDeltas [chopAB1 ++ chopAB2] := by
  refine ⟨by decide, by decide, by decide, by decide⟩

/-- C2, amended: chunking invariance holds for the SSE line-framed
decoder — for every list of chunks, decoding the chunked stream emits
exactly the deltas of decoding the concatenation as one chunk.  (The
concatenated-JSON decoder violates the property, as the counterexample
shows, when a chunk boundary falls after whitespace inside a JSON string
literal.) -/
theorem sse_chunking_invariance (chunks : List Str) :
    sseDeltas chunks = sseDeltas [chunks.flatten] := by
  rw [sseDeltas, sseDeltas, sseRunAux_eq_join chunks [] (by simp),
    sseRunAux_eq_join [chunks.flatten] [] (by simp)]
  simp

/-- C10: the SSE decoder's emissions come exclusively from
newline-terminated lines — a complete `data: `-framed JSON line that the
stream ends without a newline is never emitted (no end-of-stream flush) —
whereas the concatenated-JSON decoder ends its run with `concatFinish`,
one final parse attempt on the leftover tail, which does emit a parseable
tail. -/
theorem sse_no_eos_flush :
    (∀ chunks : List Str,
      sseDeltas chunks = (splitNL chunks.flatten).1.filterMap emitLine) ∧
    sseDeltas [sseLine4] = [] ∧
    sseDeltas [sseLine4 ++ nlStr] = [t4] ∧
    (∀ leftover : Str, concatRunFrom leftover [] = concatFinish leftover) ∧
    concatFinish frame4 = [t4] := by
  refine ⟨?_, by decide, by decide, ?_, by decide⟩
  · intro chunks
    rw [sseDeltas, sseRunAux_eq_join chunks [] (by simp)]
    simp
  · intro leftover
    rfl

/-! ## Claims about the critique verdict -/

/-- C6, counterexample.  `_parseCritique` sets
`isAcceptable = resultMatch ? ... : false`: with *no* verdict token the
step is classified **flawed** (with the default flawed reason), and the
orchestrator runs a correction call — the opposite of the claimed
fail-open default.  (Source comment: "Default to flawed if 'acceptable'
is not explicitly found".) -/
theorem critique_default_cex :
    (parseCritique tNoVerdict).1 = true ∧
    (parseCritique tNoVerdict).2 = defaultFlawedReason ∧
    (cot7Run env7X respC6 []).final.corrCalls.length = 1 := by
  refine ⟨by decide, by decide, by decide⟩

/-- C6, amended: a critique *text* with no verdict token defaults to
flawed (triggering a correction); `acceptable` is concluded only from an
explicit `Critique Result: Acceptable` match.  In the part_006 variant a
review that does not start with `ACCEPTABLE:` likewise triggers a retry
(below the attempt ceiling).  Only a critique call whose *response* is
missing or empty is assumed acceptable. -/
theorem critique_default_amended :
    (∀ s : Str, findCritiqueToken (toLowerStr s) = none →
      (parseCritique s).1 = true) ∧
    (∀ s : Str, (parseCritique s).1 = false ↔
      findCritiqueToken (toLowerStr s) = some true) ∧
    (∀ (env : Env6) (resp : Phase6 → Nat → Str) (st : Cot6State),
      st.attempts < 2 →
      acceptTag.isPrefixOf (jsTrim (resp .review st.callIdx)) = false →
      (cot6Iter env resp st .review).currentStep = some .solve ∧
        retryMarker ∈ (cot6Iter env resp st .review).output) := by
  refine ⟨?_, ?_, ?_⟩
  · intro s h
    simp [parseCritique, h]
  · intro s
    rcases h : findCritiqueToken (toLowerStr s) with _ | b
    · simp [parseCritique, h]
    · cases b <;> simp [parseCritique, h]
  · intro env resp st h1 h2
    constructor <;> simp [cot6Iter, h1, h2]

/-- C6 amended, witness. -/
theorem critique_default_amended_w :
    (parseCritique tNoVerdict).1 = true ∧
    ((cot6Iter envX6 respUnacc cot6Init .review).currentStep = some .solve ∧
      retryMarker ∈ (cot6Iter envX6 respUnacc cot6Init .review).output) :=
  ⟨critique_default_amended.1 tNoVerdict (by decide),
   critique_default_amended.2.2 envX6 respUnacc cot6Init (by decide) (by decide)⟩

/-! ## Claims about the multi-phase orchestrators -/

theorem infix_append_left {x a : Str} (b : Str) (h : x <:+: a) : x <:+: a ++ b :=
  h.trans (List.prefix_append a b).isInfix

theorem infix_append_right {x b : Str} (a : Str) (h : x <:+: b) : x <:+: a ++ b :=
  h.trans (List.suffix_append a b).isInfix

theorem agg_infix_mkSys6 (env : Env6) (p : Phase6) (att : Nat) (agg : Str) :
    agg <:+: mkSys6 env p att agg := by
  unfold mkSys6
  apply infix_append_left
  apply infix_append_left
  apply infix_append_left
  exact (List.suffix_append _ agg).isInfix

theorem cot6Iter_aggregated (env : Env6) (resp : Phase6 → Nat → Str)
    (st : Cot6State) (p : Phase6) :
    (cot6Iter env resp st p).aggregated =
      st.aggregated ++ aggHdr6 p ++ resp p st.callIdx ++ nlStr := by
  cases p
  case gather => rfl
  case analyze => rfl
  case solve => rfl
  case summarize => rfl
  case review =>
    simp only [cot6Iter]
    split_ifs <;> rfl

theorem infix_replaceFirst (s pat rep : Str) (hne : pat ≠ []) (h : pat <:+: s) :
    rep <:+: replaceFirst s pat rep := by
  rw [replaceFirst, if_neg hne]
  induction s with
  | nil => exact absurd (List.infix_nil.mp h) hne
  | cons c rest ih =>
    by_cases hp : pat.isPrefixOf (c :: rest) = true
    · simp only [replFirstAux, hp, if_true]
      exact (List.prefix_append rep _).isInfix
    · simp only [replFirstAux, hp, if_false]
      have h2 : pat <:+: rest := by
        rcases List.infix_cons_iff.mp h with hpre | hinf
        · exact absurd (List.isPrefixOf_iff_prefix.mpr hpre) hp
        · exact hinf
      exact (ih h2).trans (List.suffix_cons c _).isInfix

theorem cot7Iter_fields (env : Env7) (resp : Nat → Str) (st : Cot7State)
    (h1 : ∀ n, resp n ≠ []) (h2 : ∀ n, (parseCritique (jsTrim (resp n))).1 = true)
    (h3 : ∀ n, endsMarker (resp n) = false) :
    (cot7Iter env resp st).stepCount = st.stepCount + 1 ∧
    (cot7Iter env resp st).reasoningComplete = st.reasoningComplete := by
  constructor <;> simp [cot7Iter, h1, h2, h3]

theorem cot7Loop_fields (env : Env7) (resp : Nat → Str)
    (h1 : ∀ n, resp n ≠ []) (h2 : ∀ n, (parseCritique (jsTrim (resp n))).1 = true)
    (h3 : ∀ n, endsMarker (resp n) = false) :
    ∀ (fuel : Nat) (st : Cot7State), st.reasoningComplete = false →
      15 ≤ st.stepCount + fuel → st.stepCount ≤ 15 →
      (cot7Loop env resp fuel st).stepCount = 15 ∧
      (cot7Loop env resp fuel st).reasoningComplete = false := by
  intro fuel
  induction fuel with
  | zero =>
    intro st hrc hge hle
    simp only [cot7Loop]
    exact ⟨by omega, hrc⟩
  | succ fuel ih =>
    intro st hrc hge hle
    by_cases hlt : st.stepCount < 15
    · have hguard : st.stepCount < 15 ∧ st.reasoningComplete = false := ⟨hlt, hrc⟩
      simp only [cot7Loop, hguard, and_self, if_true]
      obtain ⟨e1, e2⟩ := cot7Iter_fields env resp st h1 h2 h3
      refine ih (cot7Iter env resp st) (by rw [e2]; exact hrc) ?_ ?_
      · rw [e1]; omega
      · rw [e1]; omega
    · have hguard : ¬ (st.stepCount < 15 ∧ st.reasoningComplete = false) := by
        intro hc
        exact hlt hc.1
      simp only [cot7Loop, hguard, if_false]
      exact ⟨by omega, hrc⟩

/-- C5: with a review/critique that always comes back flawed, the
part_006 pipeline performs exactly `MAX_ATTEMPTS = 3` SOLVE calls, then
yields the `MAX ATTEMPTS REACHED` marker, runs SUMMARIZE once and
terminates; the part_007 loop performs exactly `MAX_AGENT_STEPS = 15`
reasoning steps, then yields the max-steps message and proceeds to the
SUMMARIZE separator. -/
theorem retry_ceiling :
    (∀ (env : Env6) (resp : Phase6 → Nat → Str),
      (∀ n, acceptTag.isPrefixOf (jsTrim (resp .review n)) = false) →
      solveCalls6 (cot6Run env resp) = 3 ∧
      maxMarker ∈ (cot6Run env resp).output ∧
      (cot6Run env resp).calls.countP
        (fun c => decide (c.1 = Phase6.summarize)) = 1 ∧
      (cot6Run env resp).currentStep = none) ∧
    (∀ (env : Env7) (resp : Nat → Str) (sdeltas : List Str),
      (∀ n, resp n ≠ []) →
      (∀ n, (parseCritique (jsTrim (resp n))).1 = true) →
      (∀ n, endsMarker (resp n) = false) →
      (cot7Run env resp sdeltas).final.stepCount = 15 ∧
      maxStepMsg ∈ (cot7Run env resp sdeltas).final.output ∧
      sumSep ∈ (cot7Run env resp sdeltas).final.output) := by
  constructor
  · intro env resp h
    refine ⟨?_, ?_, ?_, ?_⟩ <;>
      simp [cot6Run, cot6Loop, cot6Iter, cot6Init, h, solveCalls6]
  · intro env resp sdeltas h1 h2 h3
    obtain ⟨e1, e2⟩ := cot7Loop_fields env resp h1 h2 h3 16 cot7Init rfl
      (by simp [cot7Init]) (by simp [cot7Init])
    have hguard : 15 ≤ (cot7Loop env resp 16 cot7Init).stepCount ∧
        (cot7Loop env resp 16 cot7Init).reasoningComplete = false := by
      rw [e1, e2]
      exact ⟨le_refl _, rfl⟩
    refine ⟨?_, ?_, ?_⟩ <;>
      simp [cot7Run, cot7Finish, hguard, e1, e2]

/-- C5, witness: the constant oracles `UNACCEPTABLE: bad` (part_006) and
`x` (part_007). -/
theorem retry_ceiling_w :
    (solveCalls6 (cot6Run envX6 respUnacc) = 3 ∧
      maxMarker ∈ (cot6Run envX6 respUnacc).output) ∧
    ((cot7Run env7X respX []).final.stepCount = 15 ∧
      maxStepMsg ∈ (cot7Run env7X respX []).final.output) := by
  have hU : ∀ n, acceptTag.isPrefixOf (jsTrim (respUnacc .review n)) = false := by
    intro n
    show acceptTag.isPrefixOf (jsTrim respUnaccTxt) = false
    decide
  have hX1 : ∀ n, respX n ≠ [] := by
    intro n
    show tX ≠ []
    decide
  have hX2 : ∀ n : Nat, (parseCritique (jsTrim (respX n))).1 = true := by
    intro n
    show (parseCritique (jsTrim tX)).1 = true
    decide
  have hX3 : ∀ n, endsMarker (respX n) = false := by
    intro n
    show endsMarker tX = false
    decide
  exact ⟨⟨(retry_ceiling.1 envX6 respUnacc hU).1,
      (retry_ceiling.1 envX6 respUnacc hU).2.1⟩,
    ⟨(retry_ceiling.2 env7X respX [] hX1 hX2 hX3).1,
      (retry_ceiling.2 env7X respX [] hX1 hX2 hX3).2.1⟩⟩

/-- C7: when a review comes back flawed and a retry is performed, the
retry's SOLVE call instructions contain the review's feedback text
verbatim — in part_006 because `aggregatedContent` (embedded in every
system message) carries the full review text; in part_007 because the
correction system message is the template with `[CRITIQUE_REASON]`
replaced by the critique reason (provided the placeholder is still
present after the flawed-step substitution, as it is in the source
template). -/
theorem feedback_in_retry_instructions :
    (∀ (env : Env6) (resp : Phase6 → Nat → Str),
      (∀ n, acceptTag.isPrefixOf (jsTrim (resp .review n)) = false) →
      ∃ s, (cot6Run env resp).calls.get? 4 = some (Phase6.solve, s) ∧
        resp Phase6.review 3 <:+: s) ∧
    (∀ tpl step reason : Str,
      rTag <:+: replaceFirst tpl fTag step →
      reason <:+: correctionSysContent tpl step reason) := by
  constructor
  · intro env resp h
    refine ⟨mkSys6 env .solve 1
      ((cot6Iter env resp (cot6Iter env resp (cot6Iter env resp
        (cot6Iter env resp cot6Init .gather) .analyze) .solve) .review).aggregated),
      ?_, ?_⟩
    · simp [cot6Run, cot6Loop, cot6Iter, cot6Init, h]
    · rw [cot6Iter_aggregated]
      have hidx : (cot6Iter env resp (cot6Iter env resp
          (cot6Iter env resp cot6Init .gather) .analyze) .solve).callIdx = 3 := rfl
      rw [hidx]
      exact (infix_append_left _
        ((List.suffix_append _ _).isInfix)).trans (agg_infix_mkSys6 env .solve 1 _)
  · intro tpl step reason hin
    exact infix_replaceFirst _ rTag reason (by decide) hin

/-- C7, witness. -/
theorem feedback_in_retry_instructions_w :
    (∃ s, (cot6Run envX6 respUnacc).calls.get? 4 = some (Phase6.solve, s) ∧
      respUnacc Phase6.review 3 <:+: s) ∧
    respReason0 <:+: correctionSysContent corrTplX stepPlain respReason0 := by
  have hU : ∀ n, acceptTag.isPrefixOf (jsTrim (respUnacc .review n)) = false := by
    intro n
    show acceptTag.isPrefixOf (jsTrim respUnaccTxt) = false
    decide
  refine ⟨feedback_in_retry_instructions.1 envX6 respUnacc hU,
    feedback_in_retry_instructions.2 corrTplX stepPlain respReason0 ?_⟩
  show rTag <:+: replaceFirst corrTplX fTag stepPlain
  refine ⟨("CP ".data ++ stepPlain ++ " CM ".data), " CS".data, ?_⟩
  decide

set_option maxRecDepth 8000 in
/-- C8: the adaptive orchestrator detects the `REASONING COMPLETE.`
suffix, but the text it yields for the step *includes* the marker (the
step was yielded before the critique; the stripped
`finalReasoningOutput` is dead code), and the "accumulated reasoning"
handed to SUMMARIZE is the empty string — `substring(0,
lastIndexOf("### SUMMARIZE ###\n"))` is computed before the separator is
first appended, and `lastIndexOf` returns `-1`, clamped to `0`. -/
theorem completion_marker_visible :
    (cot7Run env7X resp8 []).final.reasoningComplete = true ∧
    (cot7Run env7X resp8 []).final.stepCount = 1 ∧
    (stepHello ++ nl2) ∈ (cot7Run env7X resp8 []).final.output ∧
    containsSub (stepHello ++ nl2) completionMarker = true ∧
    (cot7Run env7X resp8 []).summaryContext = [] ∧
    (cot7Run env7X resp8 []).final.finalReasoningOutput = jsTrim
      (wsDropRight (stepHello.take (stepHello.length - completionMarker.length))) := by
  refine ⟨by decide, by decide, by decide, by decide, by decide, by decide⟩

end ZewroAI
